import Mathlib

/-!
Verification development for the job orchestration and retry core of the
discovery-call service: a shallow embedding of the retry executor
(`withExponentialBackoff`), the job store (`src/db.js`, sqlite and in-memory
implementations), the discovery-call pipeline (`runAnalysisForJob`) and the
webhook ingest gate of the `/webhooks/teams` route, with theorems about them.

Modelling conventions: JS numbers occurring in retry policies are modelled as
rationals (`Math.floor` is `Int.floor`, `Math.max` is `max`); timestamps from
`new Date().toISOString()` are passed in as an explicit `now : String`;
`null`/`undefined` are `Option.none`; a thrown JS exception is the `error`
case of `Except`; asynchronous execution is modelled by the sequence of
observable events (operation invocations, retry callbacks, timer sleeps)
that a run produces, in program order.
-/

namespace DiscoveryCore

/-- Retry options of `withExponentialBackoff` (src/unnamed/part_005), with the
default values of its destructuring `{ retries = 3, baseMs = 100, factor = 2 }`. -/
structure RetryOptions where
  retries : Nat := 3
  baseMs : ℚ := 100
  factor : ℚ := 2
deriving DecidableEq, Repr

/-- Observable events of one run of the retry executor: an invocation of the
wrapped operation with its attempt number, an invocation of the `onRetry`
callback with its attempt number and computed delay, and a timer sleep. -/
inductive RetryEvent where
  | call (attempt : Nat)
  | cbInvoke (attempt : Nat) (delay : ℤ)
  | sleepFor (delay : ℤ)
deriving DecidableEq, Repr

/-- Delay computed by a retry round:
`Math.max(0, Math.floor(baseMs * Math.pow(factor, attempt)))`. -/
def backoffDelay (o : RetryOptions) (attempt : Nat) : ℤ :=
  max 0 ⌊o.baseMs * o.factor ^ attempt⌋

/-- Events produced by the sleep step of one retry round: the source sleeps
only under `if (delay > 0)`. -/
def sleepTrace (d : ℤ) : List RetryEvent :=
  if 0 < d then [RetryEvent.sleepFor d] else []

/-- One iteration of the `for (;;)` loop of `withExponentialBackoff`, at a given
attempt number.  `remaining` is `retries - attempt`, so `remaining = 0` is
exactly the source's exit test `attempt >= retries`.  The operation `fn` is a
function of the attempt number; the `onRetry` callback may itself fail, and its
result is discarded either way, mirroring `try { onRetry(...) } catch (_) {}`.
Returns the final result together with the trace of events in program order. -/
def retryLoop {ε α : Type} (fn : Nat → Except ε α) (o : RetryOptions)
    (cb : Nat → ℤ → ε → Except Unit Unit) :
    Nat → Nat → Except ε α × List RetryEvent
  | attempt, 0 =>
    match fn attempt with
    | Except.ok v => (Except.ok v, [RetryEvent.call attempt])
    | Except.error e => (Except.error e, [RetryEvent.call attempt])
  | attempt, r + 1 =>
    match fn attempt with
    | Except.ok v => (Except.ok v, [RetryEvent.call attempt])
    | Except.error e =>
      let d := backoffDelay o attempt
      let _cbResult := cb attempt d e
      let rest := retryLoop fn o cb (attempt + 1) r
      (rest.1, RetryEvent.call attempt :: RetryEvent.cbInvoke attempt d ::
        (sleepTrace d ++ rest.2))

/-- The retry executor `withExponentialBackoff` of src/unnamed/part_005:
attempt numbering starts at 0, and the loop runs until success or until
`attempt >= retries` fails. -/
def withExponentialBackoff {ε α : Type} (fn : Nat → Except ε α) (o : RetryOptions)
    (cb : Nat → ℤ → ε → Except Unit Unit) : Except ε α × List RetryEvent :=
  retryLoop fn o cb 0 o.retries

/-- Attempt numbers of the operation invocations of a trace, in order. -/
def callAttempts (tr : List RetryEvent) : List Nat :=
  tr.filterMap fun ev =>
    match ev with
    | RetryEvent.call a => some a
    | _ => none

/-- Whether a trace contains any timer sleep. -/
def hasSleepEvent (tr : List RetryEvent) : Bool :=
  tr.any fun ev =>
    match ev with
    | RetryEvent.sleepFor _ => true
    | _ => false

/-- Operation that fails on every invocation, raising the attempt number as its
error, so distinct attempts raise distinct errors. -/
def failEveryAttempt : Nat → Except Nat Unit := fun a => Except.error a

/-- Retry callback that does nothing. -/
def noopCb : Nat → ℤ → Nat → Except Unit Unit := fun _ _ _ => Except.ok ()

/-- Retry callback that throws on every invocation. -/
def throwingCb : Nat → ℤ → Nat → Except Unit Unit := fun _ _ _ => Except.error ()

/-- Concrete policy of two retries used for the exhaustion example. -/
def optsRetries2 : RetryOptions := { retries := 2, baseMs := 50, factor := 2 }

/-- Concrete policy base 50, factor 2, three retries, for the delay example. -/
def optsBase50 : RetryOptions := { retries := 3, baseMs := 50, factor := 2 }

/-- Concrete policy whose computed backoff delay is zero (base 0). -/
def optsZeroBase : RetryOptions := { retries := 1, baseMs := 0, factor := 2 }

/-- One row of the `jobs` table / one record of the in-memory store of
src/src/db.js.  `id`, `createdAt` and `updatedAt` are always set by
`createJob` and are never in the allowed update list; all other columns are
nullable. -/
structure JobRecord where
  id : String
  filename : Option String
  originalname : Option String
  status : Option String
  createdAt : String
  updatedAt : String
  resultSummary : Option String
  analysisJson : Option String
  error : Option String
  emailStatus : Option String
  emailSentAt : Option String
deriving DecidableEq, Repr

/-- Argument object of `createJob`; every field a caller may omit is optional. -/
structure JobInput where
  id : String
  filename : Option String := none
  originalname : Option String := none
  status : Option String := none
  createdAt : Option String := none
  resultSummary : Option String := none
  analysisJson : Option String := none
  error : Option String := none
  emailStatus : Option String := none
  emailSentAt : Option String := none
deriving DecidableEq, Repr

/-- Models the JS coalescing `x || null` on string-or-missing values: absent,
null and the (falsy) empty string all become null. -/
def jsOrNull (v : Option String) : Option String :=
  match v with
  | some s => if s = "" then none else some s
  | none => none

/-- Models the JS coalescing `x || d` on string-or-missing values. -/
def jsOrElse (v : Option String) (d : String) : String :=
  match v with
  | some s => if s = "" then d else s
  | none => d

/-- Record inserted by `createJob` (identical object construction in the sqlite
and the in-memory implementation of src/src/db.js). -/
def mkJobRecord (job : JobInput) (now : String) : JobRecord :=
  { id := job.id
    filename := jsOrNull job.filename
    originalname := jsOrNull job.originalname
    status := some (jsOrElse job.status "uploaded")
    createdAt := jsOrElse job.createdAt now
    updatedAt := now
    resultSummary := jsOrNull job.resultSummary
    analysisJson := jsOrNull job.analysisJson
    error := jsOrNull job.error
    emailStatus := jsOrNull job.emailStatus
    emailSentAt := jsOrNull job.emailSentAt }

/-- Replace the first record with the same id, else append: the in-memory
`createJob` does `findIndex` and assigns in place when the index exists,
otherwise pushes. -/
def replaceOrAppend (record : JobRecord) : List JobRecord → List JobRecord
  | [] => [record]
  | r :: rest =>
    if r.id = record.id then record :: rest else r :: replaceOrAppend record rest

/-- The in-memory `createJob` of src/src/db.js: it never fails, and a record
whose id already exists is silently replaced. -/
def memCreateJob (st : List JobRecord) (job : JobInput) (now : String) :
    List JobRecord :=
  replaceOrAppend (mkJobRecord job now) st

/-- Failure of the external SQL engine. -/
inductive DbError where
  | uniqueConstraint
deriving DecidableEq, Repr

/-- The sqlite `createJob` of src/src/db.js: a plain `INSERT` into a table whose
`id` column is declared `TEXT PRIMARY KEY`, so the external engine
(better-sqlite3) raises a unique-constraint error when the id already exists,
and appends the row otherwise. -/
def sqliteCreateJob (st : List JobRecord) (job : JobInput) (now : String) :
    Except DbError (List JobRecord) :=
  let record := mkJobRecord job now
  if st.any fun r => r.id = record.id then Except.error DbError.uniqueConstraint
  else Except.ok (st ++ [record])

/-- Partial update object of `updateJob`.  The outer `Option` is whether the key
is present on the fields object (`hasOwnProperty`); the inner `Option String`
is the value, which may itself be null.  Only the eight allowed keys exist. -/
structure JobFields where
  filename : Option (Option String) := none
  originalname : Option (Option String) := none
  status : Option (Option String) := none
  resultSummary : Option (Option String) := none
  analysisJson : Option (Option String) := none
  error : Option (Option String) := none
  emailStatus : Option (Option String) := none
  emailSentAt : Option (Option String) := none
deriving DecidableEq, Repr

/-- Whether any allowed key is present on the fields object. -/
def hasUpdates (f : JobFields) : Bool :=
  f.filename.isSome || f.originalname.isSome || f.status.isSome ||
  f.resultSummary.isSome || f.analysisJson.isSome || f.error.isSome ||
  f.emailStatus.isSome || f.emailSentAt.isSome

/-- Merge the present fields into a record, leaving absent keys untouched. -/
def applyFields (r : JobRecord) (f : JobFields) : JobRecord :=
  { r with
    filename := f.filename.getD r.filename
    originalname := f.originalname.getD r.originalname
    status := f.status.getD r.status
    resultSummary := f.resultSummary.getD r.resultSummary
    analysisJson := f.analysisJson.getD r.analysisJson
    error := f.error.getD r.error
    emailStatus := f.emailStatus.getD r.emailStatus
    emailSentAt := f.emailSentAt.getD r.emailSentAt }

/-- Effect of a non-empty update on the store: the record under `id` gets the
present fields merged and `updatedAt` refreshed (the sqlite `UPDATE ... WHERE
id = @id` and the in-memory object mutation agree on this). -/
def storeUpdate (st : List JobRecord) (id : String) (f : JobFields)
    (now : String) : List JobRecord :=
  st.map fun r =>
    if r.id = id then { applyFields r f with updatedAt := now } else r

/-- The in-memory `updateJob` of src/src/db.js: throws on a falsy id, silently
returns when the id is absent, and skips the `updatedAt` refresh when no
allowed key is present. -/
def memUpdateJob (st : List JobRecord) (id : String) (f : JobFields)
    (now : String) : Except String (List JobRecord) :=
  if id = "" then Except.error "updateJob: id is required"
  else
    match st.find? fun r => r.id = id with
    | none => Except.ok st
    | some _ =>
      if hasUpdates f then Except.ok (storeUpdate st id f now)
      else Except.ok st

/-- The sqlite `updateJob` of src/src/db.js: throws on a falsy id, returns
without touching the table when no allowed key is present, and otherwise runs
an `UPDATE ... WHERE id = @id`, which affects zero rows (without error) when
the id is absent. -/
def sqliteUpdateJob (st : List JobRecord) (id : String) (f : JobFields)
    (now : String) : Except String (List JobRecord) :=
  if id = "" then Except.error "updateJob: id is required"
  else if hasUpdates f then Except.ok (storeUpdate st id f now)
  else Except.ok st

/-- Statuses of a store's records, in store order. -/
def statuses (st : List JobRecord) : List (Option String) :=
  st.map fun r => r.status

/-- Result summary of the record under an id, when the record exists. -/
def summaryOf (st : List JobRecord) (id : String) : Option (Option String) :=
  (st.find? fun r => r.id = id).map fun r => r.resultSummary

/-- Job object built by the `POST /process-file` handler of
src/unnamed/part_006 before it calls `createJob`: the status passed is the
literal string `processing`. -/
def processFileJob (jobId storedFilename : String) (fileOriginalname : Option String)
    (now : String) : JobInput :=
  { id := jobId
    filename := some storedFilename
    originalname := some (jsOrElse fileOriginalname storedFilename)
    status := some "processing"
    createdAt := some now
    emailStatus := some "pending"
    emailSentAt := none }

/-- Concrete upload-handler job input for the creation-status example. -/
def c6job : JobInput := processFileJob "j1" "audio-1" none "t0"

/-- Store holding exactly the record the upload handler created. -/
def c6store : List JobRecord := memCreateJob [] c6job "t0"

/-- First creation of id `a`. -/
def c7jobA : JobInput := { id := "a", filename := some "first.mp3" }

/-- Second creation of the same id `a` with a different filename. -/
def c7jobB : JobInput := { id := "a", filename := some "second.mp3" }

/-- Store already containing a record with id `a`. -/
def c7store : List JobRecord := memCreateJob [] c7jobA "t1"

/-- Non-empty field set used for the absent-id update example. -/
def c8fields : JobFields := { status := some (some "done") }

/-- JS whitespace test covering the characters `String.prototype.trim` strips
in the strings this code handles. -/
def isJsWhitespace (c : Char) : Bool :=
  c = ' ' || c = '\t' || c = '\n' || c = '\r'

/-- Models `String.prototype.trim`: drop leading and trailing whitespace. -/
def jsTrim (s : String) : String :=
  String.mk (((s.data.dropWhile isJsWhitespace).reverse.dropWhile
    isJsWhitespace).reverse)

/-- Models `String.prototype.startsWith` for an ASCII pattern. -/
def strStartsWith (s p : String) : Bool :=
  s.data.take p.data.length == p.data

/-- Stages of the discovery-call pipeline `runAnalysisForJob` that invoke an
external operation: the Whisper transcription call, the chat-completion
analysis call, and the best-effort job-summary email. -/
inductive Stage where
  | transcription
  | chatCompletion
  | emailNotify
deriving DecidableEq, Repr

/-- Parsed analysis object; the one field `runAnalysisForJob` itself inspects
is `TOP_PRIORITY` (a string, or absent / not a string). -/
structure Analysis where
  topPriority : Option String
deriving DecidableEq, Repr

/-- External collaborators of one `runAnalysisForJob` run, as oracles: whether
the OpenAI client is configured, whether the audio file exists on disk, the
`copyFileSync` outcome, the transcription result (the coerced `transcriptText`,
possibly empty), the chat completion (a function of the transcript, yielding
the raw content), `JSON.parse` on the raw content, the `JSON.stringify` of the
stored analysis object (with its convenience fields and full report), and the
`sendJobSummaryEmail` outcome (`ok` carries the returned boolean, `error` a
thrown message). -/
structure PipelineEnv where
  openaiConfigured : Bool
  fileExists : Bool
  copyFile : Except String Unit
  transcription : Except String String
  chat : String → Except String String
  parseJson : String → Option Analysis
  encodeStored : Analysis → String → String
  sendEmail : Except String Bool

/-- Result summary on the success path:
`parsed.TOP_PRIORITY.trim()` when it is a non-empty string, else the fixed
fallback `Analysis complete.`. -/
def doneSummary (a : Analysis) : String :=
  match a.topPriority with
  | some s => if jsTrim s = "" then "Analysis complete." else jsTrim s
  | none => "Analysis complete."

/-- Update fields of the early validation failures and of the invalid-JSON
path: status error, resultSummary and error both the given message, email
status error. -/
def errFields (msg : String) : JobFields :=
  { status := some (some "error")
    resultSummary := some (some msg)
    error := some (some msg)
    emailStatus := some (some "error") }

/-- Update fields of the outer catch of `runAnalysisForJob`: the result summary
is the fixed prefix `Analysis failed: ` followed by the thrown message,
whichever stage threw. -/
def failFields (msg : String) : JobFields :=
  { status := some (some "error")
    resultSummary := some (some ("Analysis failed: " ++ msg))
    error := some (some msg)
    emailStatus := some (some "error") }

/-- Update fields of the success path: status done, summary, stored analysis
JSON, and an explicit `error: null`. -/
def doneFields (env : PipelineEnv) (parsed : Analysis) : JobFields :=
  { status := some (some "done")
    resultSummary := some (some (doneSummary parsed))
    analysisJson := some (some (env.encodeStored parsed (doneSummary parsed)))
    error := some none }

/-- Email outcome triple `(emailStatus, emailSentAt, error message)` computed
by the inner try of the email block. -/
def emailOutcome (env : PipelineEnv) (now : String) :
    String × Option String × Option String :=
  match env.sendEmail with
  | Except.ok true => ("sent", some now, none)
  | Except.ok false => ("error", none, some "Email failed: transporter returned false.")
  | Except.error m => ("error", none, some ("Email failed: " ++ m))

/-- Update fields written after the email attempt: always all three keys. -/
def emailFields (o : String × Option String × Option String) : JobFields :=
  { emailStatus := some (some o.1)
    emailSentAt := some o.2.1
    error := some o.2.2 }

/-- Body of the big `try` of `runAnalysisForJob`, from `copyFileSync` to the
email block.  An `error` result is an exception reaching the outer catch and
carries the thrown message, the store state at the throw, and the stages
invoked so far; an `ok` result carries the final store and the invoked stages.
Stage failures themselves are handled inline, so with a non-empty `jobId` the
only Lean-level errors are the (dead in practice) id-required throws of
`updateJob`. -/
def runAnalysisTry (env : PipelineEnv) (st : List JobRecord) (jobId now : String) :
    Except (String × List JobRecord × List Stage) (List JobRecord × List Stage) :=
  match env.copyFile with
  | Except.error m => Except.error (m, st, [])
  | Except.ok () =>
    match env.transcription with
    | Except.error m => Except.error (m, st, [Stage.transcription])
    | Except.ok transcriptText =>
      if transcriptText = "" then
        Except.error ("Empty transcript from OpenAI Whisper", st, [Stage.transcription])
      else
        match env.chat transcriptText with
        | Except.error m =>
          Except.error (m, st, [Stage.transcription, Stage.chatCompletion])
        | Except.ok content =>
          let rawContent := jsTrim content
          if rawContent = "" then
            Except.error ("Empty analysis response from OpenAI Chat", st,
              [Stage.transcription, Stage.chatCompletion])
          else
            match env.parseJson rawContent with
            | none =>
              match memUpdateJob st jobId
                  (errFields "Analysis failed: invalid JSON from model.") now with
              | Except.ok st1 =>
                Except.ok (st1, [Stage.transcription, Stage.chatCompletion])
              | Except.error m =>
                Except.error (m, st, [Stage.transcription, Stage.chatCompletion])
            | some parsed =>
              match memUpdateJob st jobId (doneFields env parsed) now with
              | Except.error m =>
                Except.error (m, st, [Stage.transcription, Stage.chatCompletion])
              | Except.ok st1 =>
                match st1.find? fun r => r.id = jobId with
                | none => Except.ok (st1, [Stage.transcription, Stage.chatCompletion])
                | some _row =>
                  match memUpdateJob st1 jobId (emailFields (emailOutcome env now)) now with
                  | Except.ok st2 =>
                    Except.ok (st2,
                      [Stage.transcription, Stage.chatCompletion, Stage.emailNotify])
                  | Except.error m =>
                    match memUpdateJob st1 jobId
                        { emailStatus := some (some "error"), error := some (some m) } now with
                    | Except.ok st2 =>
                      Except.ok (st2,
                        [Stage.transcription, Stage.chatCompletion, Stage.emailNotify])
                    | Except.error m2 =>
                      Except.error (m2, st1,
                        [Stage.transcription, Stage.chatCompletion, Stage.emailNotify])

/-- The pipeline `runAnalysisForJob` of src/unnamed/part_006: find the job row,
run the early validations (each writing a terminal error record and stopping),
then the staged try body; a throw from the try body lands in the outer catch,
which writes status error with the `Analysis failed: ` prefixed summary.  The
result is the final store and the list of invoked stages; a Lean-level `error`
is an exception escaping `runAnalysisForJob` itself. -/
def runAnalysisForJob (env : PipelineEnv) (st : List JobRecord) (jobId now : String) :
    Except String (List JobRecord × List Stage) :=
  match st.find? fun r => r.id = jobId with
  | none =>
    Except.ok ((memUpdateJob st jobId (errFields "Job not found for processing") now).toOption.getD st, [])
  | some jobRow =>
    if env.openaiConfigured = false then
      (memUpdateJob st jobId (errFields "OpenAI client not configured. Set OPENAI_API_KEY.") now).map
        fun st1 => (st1, [])
    else if jobRow.filename.getD "" = "" then
      (memUpdateJob st jobId (errFields "Missing audio filename for job.") now).map
        fun st1 => (st1, [])
    else if env.fileExists = false then
      (memUpdateJob st jobId (errFields "Audio file not found on disk for job.") now).map
        fun st1 => (st1, [])
    else
      match runAnalysisTry env st jobId now with
      | Except.ok res => Except.ok res
      | Except.error (m, stAt, stages) =>
        (memUpdateJob stAt jobId (failFields m) now).map fun st1 => (st1, stages)

/-- Store holding the job the upload handler created under id `j1` with a
stored audio filename; the pipeline examples run against it. -/
def pipeStore : List JobRecord := memCreateJob [] (processFileJob "j1" "audio-1" none "t0") "t0"

/-- Environment where every stage succeeds but the email send throws. -/
def c4env : PipelineEnv :=
  { openaiConfigured := true
    fileExists := true
    copyFile := Except.ok ()
    transcription := Except.ok "hello transcript"
    chat := fun _ => Except.ok "{analysis}"
    parseJson := fun _ => some { topPriority := some "Automate intake" }
    encodeStored := fun _ s => s
    sendEmail := Except.error "smtp down" }

/-- Environment whose transcription stage throws `boom`. -/
def c5envA : PipelineEnv :=
  { openaiConfigured := true
    fileExists := true
    copyFile := Except.ok ()
    transcription := Except.error "boom"
    chat := fun _ => Except.ok "{analysis}"
    parseJson := fun _ => some { topPriority := some "Automate intake" }
    encodeStored := fun _ s => s
    sendEmail := Except.ok true }

/-- Environment whose transcription succeeds and whose chat-completion stage
throws `boom`. -/
def c5envB : PipelineEnv :=
  { openaiConfigured := true
    fileExists := true
    copyFile := Except.ok ()
    transcription := Except.ok "hello transcript"
    chat := fun _ => Except.error "boom"
    parseJson := fun _ => some { topPriority := some "Automate intake" }
    encodeStored := fun _ s => s
    sendEmail := Except.ok true }

/-- Store that both failing-stage example runs produce: the outer catch writes
the same record whichever stage threw `boom`. -/
def c5errStore : List JobRecord := storeUpdate pipeStore "j1" (failFields "boom") "t1"

/-- Proposition that a given pipeline stage's external operation fails with the
message `e0`, the earlier stages succeeding as required to reach it: the
transcription call rejects, or the transcription yields a non-empty transcript
and the chat-completion call rejects.  The best-effort email step is not one
of the pipeline's staged operations — its failure is recovered locally and
never produces the error transition — so no stage failure is attributed to
it. -/
def stageFails (env : PipelineEnv) (s : Stage) (e0 : String) : Prop :=
  match s with
  | Stage.transcription => env.transcription = Except.error e0
  | Stage.chatCompletion =>
    ∃ t, env.transcription = Except.ok t ∧ t ≠ "" ∧ env.chat t = Except.error e0
  | Stage.emailNotify => False

/-- Stages invoked up to and including a given stage, in pipeline order. -/
def stagesThrough : Stage → List Stage
  | Stage.transcription => [Stage.transcription]
  | Stage.chatCompletion => [Stage.transcription, Stage.chatCompletion]
  | Stage.emailNotify =>
    [Stage.transcription, Stage.chatCompletion, Stage.emailNotify]

/-- Decisions of the ingest gate of the `POST /webhooks/teams` handler. -/
inductive GateDecision where
  | rejectInvalid
  | dryRunShortCircuit
  | rejectNetworkDisabled
  | proceed
deriving DecidableEq, Repr

/-- The `transcript_url` value of the request body: absent, present but not a
string, or a string. -/
inductive ReqTarget where
  | missing
  | nonString
  | str (s : String)
deriving DecidableEq, Repr

/-- Ingest gate of the `POST /webhooks/teams` handler of src/unnamed/part_006:
`if (!transcriptUrl || typeof transcriptUrl !== 'string')` rejects as invalid
(the empty string is falsy and lands here too); then the `DRY_RUN === '1'`
short circuit; then `mock:` targets skip the network gate and anything else is
rejected unless `ALLOW_NETWORK === '1'`; otherwise the request proceeds to the
transcript download. -/
def webhookIngestGate (target : ReqTarget) (dryRun allowNetwork : Bool) :
    GateDecision :=
  match target with
  | ReqTarget.missing => GateDecision.rejectInvalid
  | ReqTarget.nonString => GateDecision.rejectInvalid
  | ReqTarget.str url =>
    if url = "" then GateDecision.rejectInvalid
    else if dryRun then GateDecision.dryRunShortCircuit
    else if !strStartsWith url "mock:" && !allowNetwork then
      GateDecision.rejectNetworkDisabled
    else GateDecision.proceed

/-- Decision procedure transcribed from the words of claim C9: (1) missing or
non-string target rejects as invalid; (2) dry-run short-circuits; (3) a
`mock:` target proceeds regardless of the network flag; (4) network disabled
rejects a real external target; (5) otherwise proceed. -/
def claimIngestGate (target : ReqTarget) (dryRun allowNetwork : Bool) :
    GateDecision :=
  match target with
  | ReqTarget.missing => GateDecision.rejectInvalid
  | ReqTarget.nonString => GateDecision.rejectInvalid
  | ReqTarget.str url =>
    if dryRun then GateDecision.dryRunShortCircuit
    else if strStartsWith url "mock:" then GateDecision.proceed
    else if !allowNetwork then GateDecision.rejectNetworkDisabled
    else GateDecision.proceed

/-- Decision procedure of the amended claim: clause (1) additionally rejects
the empty-string target (JS falsiness), the remaining clauses unchanged. -/
def amendedIngestGate (target : ReqTarget) (dryRun allowNetwork : Bool) :
    GateDecision :=
  match target with
  | ReqTarget.missing => GateDecision.rejectInvalid
  | ReqTarget.nonString => GateDecision.rejectInvalid
  | ReqTarget.str url =>
    if url = "" then GateDecision.rejectInvalid
    else if dryRun then GateDecision.dryRunShortCircuit
    else if strStartsWith url "mock:" then GateDecision.proceed
    else if !allowNetwork then GateDecision.rejectNetworkDisabled
    else GateDecision.proceed

/-- Attempt numbers keep the head of a call event. -/
theorem callAttempts_cons_call (a : Nat) (tr : List RetryEvent) :
    callAttempts (RetryEvent.call a :: tr) = a :: callAttempts tr := rfl

/-- Attempt numbers ignore a callback event at the head of a trace. -/
theorem callAttempts_cons_cb (a : Nat) (d : ℤ) (tr : List RetryEvent) :
    callAttempts (RetryEvent.cbInvoke a d :: tr) = callAttempts tr := rfl

/-- Attempt lists concatenate over trace concatenation. -/
theorem callAttempts_append (t1 t2 : List RetryEvent) :
    callAttempts (t1 ++ t2) = callAttempts t1 ++ callAttempts t2 :=
  List.filterMap_append t1 t2 _

/-- A sleep segment contributes no operation invocation. -/
theorem callAttempts_sleepTrace (d : ℤ) : callAttempts (sleepTrace d) = [] := by
  unfold sleepTrace
  split <;> rfl

/-- Backoff delay for integer-valued options, with the floor discharged. -/
theorem backoffDelay_intCast (o : RetryOptions) (b f : ℤ)
    (hb : o.baseMs = (b : ℚ)) (hf : o.factor = (f : ℚ)) (a : Nat) :
    backoffDelay o a = max 0 (b * f ^ a) := by
  rw [backoffDelay, hb, hf, ← Int.cast_pow, ← Int.cast_mul, Int.floor_intCast]

/-- On an operation failing at every attempt, the loop started at attempt `a`
with `r` retries left returns the error of attempt `a + r` and invokes the
operation at the attempts `a, a+1, ..., a+r` exactly. -/
theorem retryLoop_allFail {ε α : Type} (fn : Nat → Except ε α) (e : Nat → ε)
    (o : RetryOptions) (cb : Nat → ℤ → ε → Except Unit Unit)
    (hfail : ∀ n, fn n = Except.error (e n)) :
    ∀ (r a : Nat),
      (retryLoop fn o cb a r).1 = Except.error (e (a + r)) ∧
      callAttempts (retryLoop fn o cb a r).2 = List.range' a (r + 1) := by
  intro r
  induction r with
  | zero =>
    intro a
    simp only [retryLoop, hfail a]
    exact ⟨rfl, rfl⟩
  | succ r ih =>
    intro a
    obtain ⟨ih1, ih2⟩ := ih (a + 1)
    simp only [retryLoop, hfail a]
    constructor
    · rw [ih1]
      have h' : a + 1 + r = a + (r + 1) := by omega
      rw [h']
    · rw [callAttempts_cons_call, callAttempts_cons_cb, callAttempts_append,
        callAttempts_sleepTrace, List.nil_append, ih2, List.range'_succ a (r + 1) 1]

/-- C1: for a policy with `retries = n` and an operation failing on every
invocation, `withExponentialBackoff` invokes the operation exactly `n + 1`
times, at the attempts `0, 1, ..., n`, and rejects with exactly the error
raised by the final invocation (attempt `n`), unchanged and unwrapped. -/
theorem retry_exhausts_then_rethrows {ε α : Type} (fn : Nat → Except ε α)
    (e : Nat → ε) (o : RetryOptions) (cb : Nat → ℤ → ε → Except Unit Unit)
    (hfail : ∀ n, fn n = Except.error (e n)) :
    (withExponentialBackoff fn o cb).1 = Except.error (e o.retries) ∧
    callAttempts (withExponentialBackoff fn o cb).2 = List.range (o.retries + 1) := by
  obtain ⟨h1, h2⟩ := retryLoop_allFail fn e o cb hfail o.retries 0
  constructor
  · show (retryLoop fn o cb 0 o.retries).1 = _
    rw [h1, Nat.zero_add]
  · show callAttempts (retryLoop fn o cb 0 o.retries).2 = _
    rw [h2, List.range_eq_range']

/-- Witness for C1 at the concrete policy `retries = 2` and an operation whose
error at attempt `n` is `n` itself: three invocations, attempts 0, 1, 2, and
the error of the final attempt (equal to 2) comes back as raised. -/
theorem retry_exhausts_then_rethrows_witness :
    (∀ n, failEveryAttempt n = Except.error n) ∧
    ((withExponentialBackoff failEveryAttempt optsRetries2 noopCb).1 =
        Except.error optsRetries2.retries ∧
      callAttempts (withExponentialBackoff failEveryAttempt optsRetries2 noopCb).2 =
        List.range (optsRetries2.retries + 1)) :=
  ⟨fun _ => rfl,
    retry_exhausts_then_rethrows failEveryAttempt (fun n => n) optsRetries2 noopCb
      (fun _ => rfl)⟩

/-- The callback invocation recorded for a retry round carries exactly the
round's computed backoff delay, and rounds of a loop started at attempt `a₀`
with `r` retries left have attempt numbers in `[a₀, a₀ + r)`. -/
theorem retryLoop_cb_delay {ε α : Type} (fn : Nat → Except ε α)
    (o : RetryOptions) (cb : Nat → ℤ → ε → Except Unit Unit) :
    ∀ (r a₀ a : Nat) (d : ℤ),
      RetryEvent.cbInvoke a d ∈ (retryLoop fn o cb a₀ r).2 →
      d = backoffDelay o a ∧ a₀ ≤ a ∧ a < a₀ + r := by
  intro r
  induction r with
  | zero =>
    intro a₀ a d h
    cases hfn : fn a₀ <;> simp only [retryLoop, hfn] at h <;> simp at h
  | succ r ih =>
    intro a₀ a d h
    cases hfn : fn a₀ with
    | ok v => simp only [retryLoop, hfn] at h; simp at h
    | error e =>
      simp only [retryLoop, hfn, List.mem_cons, List.mem_append] at h
      rcases h with h | h | h | h
      · exact absurd h (by simp)
      · obtain ⟨ha, hd⟩ : a = a₀ ∧ d = backoffDelay o a₀ := by
          injection h with h1 h2
          exact ⟨h1, h2⟩
        refine ⟨?_, by omega, by omega⟩
        rw [ha]
        exact hd
      · exfalso
        revert h
        unfold sleepTrace
        split <;> simp
      · obtain ⟨hd, h1, h2⟩ := ih (a₀ + 1) a d h
        exact ⟨hd, by omega, by omega⟩

/-- C2: whenever a retry round is observed at attempt `a` (its `onRetry`
callback is invoked with delay `d`), the delay equals
`max 0 ⌊baseMs * factor ^ a⌋` — `Math.max(0, Math.floor(...))` of the source —
and `a < retries`; the executor contains no jitter, so the delay is a function
of the policy and the attempt number alone. -/
theorem retry_delay_formula {ε α : Type} (fn : Nat → Except ε α)
    (o : RetryOptions) (cb : Nat → ℤ → ε → Except Unit Unit) (a : Nat) (d : ℤ)
    (h : RetryEvent.cbInvoke a d ∈ (withExponentialBackoff fn o cb).2) :
    d = max 0 ⌊o.baseMs * o.factor ^ a⌋ ∧ a < o.retries := by
  obtain ⟨hd, _, hlt⟩ := retryLoop_cb_delay fn o cb o.retries 0 a d h
  rw [backoffDelay] at hd
  exact ⟨hd, by simpa using hlt⟩

/-- Trace of the always-failing run under base 50, factor 2, three retries:
delays 50, 100, 200, exactly the spec's example sequence. -/
theorem optsBase50_trace :
    (withExponentialBackoff failEveryAttempt optsBase50 noopCb).2 =
      [RetryEvent.call 0, RetryEvent.cbInvoke 0 50, RetryEvent.sleepFor 50,
       RetryEvent.call 1, RetryEvent.cbInvoke 1 100, RetryEvent.sleepFor 100,
       RetryEvent.call 2, RetryEvent.cbInvoke 2 200, RetryEvent.sleepFor 200,
       RetryEvent.call 3] := by
  have hbf := backoffDelay_intCast optsBase50 50 2 (by norm_num [optsBase50])
    (by norm_num [optsBase50])
  show (retryLoop failEveryAttempt optsBase50 noopCb 0 3).2 = _
  simp only [retryLoop, failEveryAttempt, sleepTrace, hbf]
  norm_num

/-- Witness for C2: in the base-50 factor-2 run, the retry round at attempt 1
is observed with delay 100, and the claim theorem yields
`100 = max 0 ⌊50 * 2 ^ 1⌋` together with `1 < 3`. -/
theorem retry_delay_formula_witness :
    RetryEvent.cbInvoke 1 100 ∈
        (withExponentialBackoff failEveryAttempt optsBase50 noopCb).2 ∧
      ((100 : ℤ) = max 0 ⌊optsBase50.baseMs * optsBase50.factor ^ 1⌋ ∧
        1 < optsBase50.retries) := by
  have hmem : RetryEvent.cbInvoke 1 100 ∈
      (withExponentialBackoff failEveryAttempt optsBase50 noopCb).2 := by
    rw [optsBase50_trace]
    simp
  exact ⟨hmem, retry_delay_formula failEveryAttempt optsBase50 noopCb 1 100 hmem⟩

/-- The loop's behaviour does not depend on the callback: its result is
discarded whether it returns or throws. -/
theorem retryLoop_cb_irrelevant {ε α : Type} (fn : Nat → Except ε α)
    (o : RetryOptions) (cb₁ cb₂ : Nat → ℤ → ε → Except Unit Unit) :
    ∀ (r a : Nat), retryLoop fn o cb₁ a r = retryLoop fn o cb₂ a r := by
  intro r
  induction r with
  | zero =>
    intro a
    cases hfn : fn a <;> simp only [retryLoop, hfn]
  | succ r ih =>
    intro a
    cases hfn : fn a <;> simp only [retryLoop, hfn, ih (a + 1)]

/-- C10: the guard `try { onRetry({attempt, delay, error: err}) } catch (_) {}`
swallows any exception the callback throws — for any two callbacks (either of
which may throw on every invocation) the run is identical: same result or
final error, and the very same event trace (operation invocations, attempt
numbers, delays, sleeps), so a callback error never propagates to the caller. -/
theorem retry_cb_exceptions_swallowed {ε α : Type} (fn : Nat → Except ε α)
    (o : RetryOptions) (cb₁ cb₂ : Nat → ℤ → ε → Except Unit Unit) :
    withExponentialBackoff fn o cb₁ = withExponentialBackoff fn o cb₂ :=
  retryLoop_cb_irrelevant fn o cb₁ cb₂ o.retries 0

/-- Trace of the always-failing run with base 0: the retry round at attempt 0
computes delay 0 and re-invokes the operation with no sleep event between the
two invocations. -/
theorem zeroDelay_trace :
    (withExponentialBackoff failEveryAttempt optsZeroBase noopCb).2 =
      [RetryEvent.call 0, RetryEvent.cbInvoke 0 0, RetryEvent.call 1] := by
  have hbf := backoffDelay_intCast optsZeroBase 0 2 (by norm_num [optsZeroBase])
    (by norm_num [optsZeroBase])
  show (retryLoop failEveryAttempt optsZeroBase noopCb 0 1).2 = _
  simp only [retryLoop, failEveryAttempt, sleepTrace, hbf]
  norm_num

/-- C3 counterexample: with base 0 the computed delay of the first retry round
is 0 and the executor re-invokes the operation with no sleep/timer step at
all — the trace of the failing run contains the retry round `cbInvoke 0 0` and
a second invocation `call 1`, but no sleep event anywhere, refuting that the
sleep/timer step is still taken when the delay is zero. -/
theorem retry_zero_delay_no_sleep_cex :
    RetryEvent.cbInvoke 0 0 ∈
        (withExponentialBackoff failEveryAttempt optsZeroBase noopCb).2 ∧
      callAttempts (withExponentialBackoff failEveryAttempt optsZeroBase noopCb).2 =
        [0, 1] ∧
      hasSleepEvent (withExponentialBackoff failEveryAttempt optsZeroBase noopCb).2 =
        false := by
  refine ⟨?_, ?_, ?_⟩ <;> rw [zeroDelay_trace]
  · simp
  · rfl
  · rfl

/-- Membership of a sleep event in a round's sleep segment. -/
theorem sleepFor_mem_sleepTrace (d d₀ : ℤ) :
    RetryEvent.sleepFor d ∈ sleepTrace d₀ ↔ d = d₀ ∧ 0 < d₀ := by
  unfold sleepTrace
  split
  · rename_i h
    simp [h]
  · rename_i h
    simp
    intro he
    omega

/-- A sleep segment contains no callback invocation. -/
theorem cbInvoke_not_mem_sleepTrace (a : Nat) (d d₀ : ℤ) :
    RetryEvent.cbInvoke a d ∉ sleepTrace d₀ := by
  unfold sleepTrace
  split <;> simp

/-- Sleeps of a loop run are exactly the positive computed delays of its retry
rounds. -/
theorem retryLoop_sleep_iff {ε α : Type} (fn : Nat → Except ε α)
    (o : RetryOptions) (cb : Nat → ℤ → ε → Except Unit Unit) :
    ∀ (r a₀ : Nat) (d : ℤ),
      RetryEvent.sleepFor d ∈ (retryLoop fn o cb a₀ r).2 ↔
        (0 < d ∧ ∃ a, RetryEvent.cbInvoke a d ∈ (retryLoop fn o cb a₀ r).2) := by
  intro r
  induction r with
  | zero =>
    intro a₀ d
    cases hfn : fn a₀ <;> simp only [retryLoop, hfn] <;> simp
  | succ r ih =>
    intro a₀ d
    cases hfn : fn a₀ with
    | ok v => simp only [retryLoop, hfn]; simp
    | error e =>
      simp only [retryLoop, hfn, List.mem_cons, List.mem_append]
      constructor
      · intro h
        rcases h with h | h | h | h
        · exact absurd h (by simp)
        · exact absurd h (by simp)
        · obtain ⟨hd, hpos⟩ := (sleepFor_mem_sleepTrace d (backoffDelay o a₀)).mp h
          refine ⟨by omega, a₀, Or.inr (Or.inl ?_)⟩
          rw [hd]
        · obtain ⟨hpos, a, ha⟩ := (ih (a₀ + 1) d).mp h
          exact ⟨hpos, a, Or.inr (Or.inr (Or.inr ha))⟩
      · rintro ⟨hpos, a, ha | ha | ha | ha⟩
        · exact absurd ha (by simp)
        · obtain ⟨hae, hde⟩ : a = a₀ ∧ d = backoffDelay o a₀ := by
            injection ha with h1 h2
            exact ⟨h1, h2⟩
          refine Or.inr (Or.inr (Or.inl ((sleepFor_mem_sleepTrace d
            (backoffDelay o a₀)).mpr ⟨hde, ?_⟩)))
          rw [← hde]
          exact hpos
        · exact absurd ha (cbInvoke_not_mem_sleepTrace a d (backoffDelay o a₀))
        · exact Or.inr (Or.inr (Or.inr ((ih (a₀ + 1) d).mpr ⟨hpos, a, ha⟩)))

/-- C3 (amended): the executor sleeps exactly for the retry rounds whose
computed delay is positive — a sleep event with delay `d` occurs in a run if
and only if `0 < d` and some retry round was observed with that computed
delay; a zero-delay round re-invokes the operation without the sleep/timer
step, per the `if (delay > 0)` guard of the source. -/
theorem retry_sleep_iff_positive_delay {ε α : Type} (fn : Nat → Except ε α)
    (o : RetryOptions) (cb : Nat → ℤ → ε → Except Unit Unit) (d : ℤ) :
    RetryEvent.sleepFor d ∈ (withExponentialBackoff fn o cb).2 ↔
      (0 < d ∧ ∃ a, RetryEvent.cbInvoke a d ∈ (withExponentialBackoff fn o cb).2) :=
  retryLoop_sleep_iff fn o cb o.retries 0 d

/-- The record built by `createJob` keeps the caller's id. -/
theorem mkJobRecord_id (job : JobInput) (now : String) :
    (mkJobRecord job now).id = job.id := rfl

/-- The inserted record is always present after an in-memory create. -/
theorem mem_replaceOrAppend (record : JobRecord) :
    ∀ st : List JobRecord, record ∈ replaceOrAppend record st := by
  intro st
  induction st with
  | nil => exact List.mem_singleton_self record
  | cons x xs ih =>
    unfold replaceOrAppend
    by_cases hx : x.id = record.id
    · rw [if_pos hx]
      exact List.mem_cons_self record xs
    · rw [if_neg hx]
      exact List.mem_cons_of_mem x ih

/-- When some record already has the inserted id, the in-memory create keeps
the store length unchanged (it replaces instead of appending). -/
theorem replaceOrAppend_length_of_mem (record : JobRecord) :
    ∀ st : List JobRecord, (∃ r ∈ st, r.id = record.id) →
      (replaceOrAppend record st).length = st.length := by
  intro st
  induction st with
  | nil =>
    rintro ⟨r, hr, _⟩
    cases hr
  | cons x xs ih =>
    rintro ⟨r, hr, hid⟩
    unfold replaceOrAppend
    by_cases hx : x.id = record.id
    · rw [if_pos hx]
      rfl
    · rw [if_neg hx]
      rcases List.mem_cons.mp hr with he | hm
      · exact absurd (he ▸ hid) hx
      · rw [List.length_cons, List.length_cons, ih ⟨r, hm, hid⟩]

/-- C7 counterexample: creating a second record under the already-present id
`a` does not fail in the in-memory backend — the store afterwards consists of
exactly the fresh record (the original `first.mp3` record is gone, replaced by
`second.mp3`), while the sqlite backend raises the unique-constraint error, so
the two backends do not behave identically and neither matches a
`DuplicateId` failure for the in-memory case. -/
theorem jobstore_duplicate_create_cex :
    memCreateJob c7store c7jobB "t2" = [mkJobRecord c7jobB "t2"] ∧
    (mkJobRecord c7jobB "t2").filename = some "second.mp3" ∧
    sqliteCreateJob c7store c7jobB "t2" = Except.error DbError.uniqueConstraint := by
  refine ⟨rfl, rfl, rfl⟩

/-- C7 (amended): when the store already holds a record with the new record's
id, the sqlite backend fails with the primary-key unique-constraint error,
while the in-memory backend succeeds and silently replaces the first record
with that id in place (store length unchanged, fresh record present); the two
backends do not behave identically on duplicate create. -/
theorem jobstore_duplicate_create_behavior (st : List JobRecord) (job : JobInput)
    (now : String) (h : ∃ r ∈ st, r.id = job.id) :
    sqliteCreateJob st job now = Except.error DbError.uniqueConstraint ∧
    (memCreateJob st job now).length = st.length ∧
    mkJobRecord job now ∈ memCreateJob st job now := by
  obtain ⟨r0, hr0, hid⟩ := h
  refine ⟨?_, ?_, mem_replaceOrAppend _ st⟩
  · unfold sqliteCreateJob
    rw [if_pos ?hany]
    case hany =>
      rw [List.any_eq_true]
      exact ⟨r0, hr0, by simp [mkJobRecord_id, hid]⟩
  · exact replaceOrAppend_length_of_mem _ st ⟨r0, hr0, hid⟩

/-- Witness for C7 (amended) at the concrete duplicate create of id `a`. -/
theorem jobstore_duplicate_create_behavior_witness :
    (∃ r ∈ c7store, r.id = c7jobB.id) ∧
    (sqliteCreateJob c7store c7jobB "t2" = Except.error DbError.uniqueConstraint ∧
      (memCreateJob c7store c7jobB "t2").length = c7store.length ∧
      mkJobRecord c7jobB "t2" ∈ memCreateJob c7store c7jobB "t2") := by
  have hmem : ∃ r ∈ c7store, r.id = c7jobB.id :=
    ⟨mkJobRecord c7jobA "t1", by decide, rfl⟩
  exact ⟨hmem, jobstore_duplicate_create_behavior c7store c7jobB "t2" hmem⟩

/-- A non-empty update under an id no record carries leaves the store as it
was: the `UPDATE ... WHERE` / in-place mutation touches no record. -/
theorem storeUpdate_absent (st : List JobRecord) (id : String) (f : JobFields)
    (now : String) (h : ∀ r ∈ st, r.id ≠ id) : storeUpdate st id f now = st := by
  unfold storeUpdate
  induction st with
  | nil => rfl
  | cons x xs ih =>
    rw [List.map_cons, if_neg (h x (List.mem_cons_self x xs)),
      ih fun r hr => h r (List.mem_cons_of_mem x hr)]

/-- C8 counterexample: updating an id absent from the store with a non-empty
field set silently succeeds without touching the store, in both backends —
neither fails with a NotFound error. -/
theorem jobstore_update_notfound_cex :
    hasUpdates c8fields = true ∧
    memUpdateJob [] "x" c8fields "t0" = Except.ok [] ∧
    sqliteUpdateJob [] "x" c8fields "t0" = Except.ok [] := by
  refine ⟨rfl, rfl, rfl⟩

/-- C8 (amended): with a non-falsy id, `update` on an id absent from the store
is a silent no-op returning success (no NotFound failure) in both backends,
and `update` with an empty field set returns success leaving the store — in
particular every record's `updatedAt` — unchanged, in both backends. -/
theorem jobstore_update_silent_noop (st : List JobRecord) (id : String)
    (f : JobFields) (now : String) (hid : id ≠ "") :
    ((∀ r ∈ st, r.id ≠ id) →
      memUpdateJob st id f now = Except.ok st ∧
      sqliteUpdateJob st id f now = Except.ok st) ∧
    (hasUpdates f = false →
      memUpdateJob st id f now = Except.ok st ∧
      sqliteUpdateJob st id f now = Except.ok st) := by
  constructor
  · intro habs
    have hfind : (st.find? fun r => r.id = id) = none := by
      rw [List.find?_eq_none]
      intro x hx
      simp [habs x hx]
    constructor
    · unfold memUpdateJob
      rw [if_neg hid, hfind]
    · unfold sqliteUpdateJob
      rw [if_neg hid]
      by_cases hu : hasUpdates f = true
      · rw [if_pos hu, storeUpdate_absent st id f now habs]
      · rw [if_neg hu]
  · intro hemp
    have hu : ¬ hasUpdates f = true := by
      rw [hemp]
      exact Bool.false_ne_true
    constructor
    · unfold memUpdateJob
      rw [if_neg hid]
      cases hfind : st.find? fun r => r.id = id with
      | none => rfl
      | some r => rw [if_neg hu]
    · unfold sqliteUpdateJob
      rw [if_neg hid, if_neg hu]

/-- Witness for C8 (amended): id `zz` is absent from the store holding only
`j1`, and both backends return the store unchanged. -/
theorem jobstore_update_silent_noop_witness :
    ("zz" : String) ≠ "" ∧
    (((∀ r ∈ c6store, r.id ≠ "zz") →
        memUpdateJob c6store "zz" c8fields "t9" = Except.ok c6store ∧
        sqliteUpdateJob c6store "zz" c8fields "t9" = Except.ok c6store) ∧
      (hasUpdates c8fields = false →
        memUpdateJob c6store "zz" c8fields "t9" = Except.ok c6store ∧
        sqliteUpdateJob c6store "zz" c8fields "t9" = Except.ok c6store)) :=
  ⟨by decide, jobstore_update_silent_noop c6store "zz" c8fields "t9" (by decide)⟩

/-- C6 counterexample: the store created by the `POST /process-file` handler's
`createJob` call holds one record and its status is the literal `processing`,
not `uploaded`. -/
theorem upload_status_not_uploaded_cex :
    statuses c6store = [some "processing"] ∧
    (some "processing" : Option String) ≠ some "uploaded" := by
  refine ⟨rfl, by decide⟩

/-- C6 (amended): every job created by the `POST /process-file` handler is
stored with status `processing` — the handler passes that literal — and the
record is present in the store after the create; the store's `createJob`
defaults the status to `uploaded` only when the caller supplies none. -/
theorem upload_handler_creates_processing (jobId storedFilename : String)
    (orig : Option String) (st : List JobRecord) (now now2 : String) :
    (mkJobRecord (processFileJob jobId storedFilename orig now) now2).status =
        some "processing" ∧
    mkJobRecord (processFileJob jobId storedFilename orig now) now2 ∈
        memCreateJob st (processFileJob jobId storedFilename orig now) now2 ∧
    (mkJobRecord { id := jobId } now2).status = some "uploaded" := by
  refine ⟨rfl, mem_replaceOrAppend _ st, rfl⟩

/-- Merging fields never changes a record's id. -/
theorem applyFields_id (r : JobRecord) (f : JobFields) :
    (applyFields r f).id = r.id := rfl

/-- Lookup after a non-empty update: the found record is the old one with the
present fields merged and `updatedAt` refreshed. -/
theorem find?_storeUpdate_of_found (st : List JobRecord) (id : String)
    (f : JobFields) (now : String) (r : JobRecord)
    (h : (st.find? fun x => x.id = id) = some r) :
    ((storeUpdate st id f now).find? fun x => x.id = id) =
      some { applyFields r f with updatedAt := now } := by
  unfold storeUpdate
  induction st with
  | nil => cases h
  | cons x xs ih =>
    rw [List.map_cons]
    by_cases hx : x.id = id
    · have hxr : x = r := by
        rw [List.find?_cons_of_pos xs (by simp [hx])] at h
        exact Option.some.inj h
      rw [List.find?_cons_of_pos _ (by simp [if_pos hx, applyFields_id, hx]),
        if_pos hx, hxr]
    · rw [List.find?_cons_of_neg xs (by simp [hx])] at h
      rw [if_neg hx, List.find?_cons_of_neg _ (by simp [hx])]
      exact ih h

/-- A non-empty update under a present, non-falsy id succeeds and rewrites the
store. -/
theorem memUpdateJob_found (st : List JobRecord) (id : String) (f : JobFields)
    (now : String) (r : JobRecord) (hid : id ≠ "")
    (hfind : (st.find? fun x => x.id = id) = some r)
    (hu : hasUpdates f = true) :
    memUpdateJob st id f now = Except.ok (storeUpdate st id f now) := by
  unfold memUpdateJob
  rw [if_neg hid]
  simp only [hfind]
  rw [if_pos hu]

/-- The success-path summary is never the empty string: either a non-empty
trimmed `TOP_PRIORITY` or the fixed fallback. -/
theorem doneSummary_ne_empty (a : Analysis) : doneSummary a ≠ "" := by
  cases htp : a.topPriority with
  | none =>
    simp only [doneSummary, htp]
    decide
  | some s =>
    simp only [doneSummary, htp]
    by_cases hs : jsTrim s = ""
    · rw [if_pos hs]
      decide
    · rw [if_neg hs]
      exact hs

/-- The email outcome of a failed or refused send carries status `error`. -/
theorem emailOutcome_failed (env : PipelineEnv) (now : String)
    (hmail : (∃ m, env.sendEmail = Except.error m) ∨ env.sendEmail = Except.ok false) :
    (emailOutcome env now).1 = "error" := by
  unfold emailOutcome
  rcases hmail with ⟨m, hm⟩ | hm <;> rw [hm]

/-- C4: when every pipeline stage has succeeded and the job has been written as
`done` with its summary, a failing job-summary email (thrown or refused by the
transporter) is recovered locally: the run still returns normally having
invoked all three stages, and the job's record afterwards keeps
`status = done` and the populated, unchanged `resultSummary`, while
`emailStatus` is `error`. -/
theorem notify_failure_preserves_done (env : PipelineEnv) (st : List JobRecord)
    (jobId now : String) (row : JobRecord) (fname t c : String) (a : Analysis)
    (hid : jobId ≠ "")
    (hfind : (st.find? fun r => r.id = jobId) = some row)
    (hoai : env.openaiConfigured = true)
    (hfname : row.filename = some fname) (hfne : fname ≠ "")
    (hfile : env.fileExists = true)
    (hcopy : env.copyFile = Except.ok ())
    (ht : env.transcription = Except.ok t) (htne : t ≠ "")
    (hc : env.chat t = Except.ok c) (hcne : jsTrim c ≠ "")
    (hp : env.parseJson (jsTrim c) = some a)
    (hmail : (∃ m, env.sendEmail = Except.error m) ∨ env.sendEmail = Except.ok false) :
    ∃ st' r',
      runAnalysisForJob env st jobId now =
        Except.ok (st', [Stage.transcription, Stage.chatCompletion, Stage.emailNotify]) ∧
      (st'.find? fun r => r.id = jobId) = some r' ∧
      r'.status = some "done" ∧
      r'.resultSummary = some (doneSummary a) ∧
      doneSummary a ≠ "" ∧
      r'.emailStatus = some "error" := by
  have hupd1 : memUpdateJob st jobId (doneFields env a) now =
      Except.ok (storeUpdate st jobId (doneFields env a) now) :=
    memUpdateJob_found st jobId _ now row hid hfind rfl
  have hfind1 : ((storeUpdate st jobId (doneFields env a) now).find?
      fun x => x.id = jobId) =
      some { applyFields row (doneFields env a) with updatedAt := now } :=
    find?_storeUpdate_of_found st jobId _ now row hfind
  have hupd2 : memUpdateJob (storeUpdate st jobId (doneFields env a) now) jobId
      (emailFields (emailOutcome env now)) now =
      Except.ok (storeUpdate (storeUpdate st jobId (doneFields env a) now) jobId
        (emailFields (emailOutcome env now)) now) :=
    memUpdateJob_found _ jobId _ now _ hid hfind1 rfl
  have hfind2 := find?_storeUpdate_of_found
    (storeUpdate st jobId (doneFields env a) now) jobId
    (emailFields (emailOutcome env now)) now _ hfind1
  refine ⟨_, _, ?_, hfind2, ?_, ?_, doneSummary_ne_empty a, ?_⟩
  · unfold runAnalysisForJob runAnalysisTry
    simp only [hfind, hoai, hfname, hfile, hcopy, ht, hc, hp, hupd1, hfind1,
      hupd2, Option.getD_some, hfne, htne, hcne, if_neg, if_false,
      Bool.true_eq_false, if_true, ite_false, ite_true, reduceCtorEq]
  · rfl
  · rfl
  · show some (emailOutcome env now).1 = some "error"
    rw [emailOutcome_failed env now hmail]

/-- Witness for C4 at the concrete environment in which all stages succeed and
the email send throws `smtp down`, over the store created by the upload
handler. -/
theorem notify_failure_preserves_done_witness :
    (pipeStore.find? fun r => r.id = "j1") =
        some (mkJobRecord (processFileJob "j1" "audio-1" none "t0") "t0") ∧
      (∃ st' r',
        runAnalysisForJob c4env pipeStore "j1" "t1" =
          Except.ok (st',
            [Stage.transcription, Stage.chatCompletion, Stage.emailNotify]) ∧
        (st'.find? fun r => r.id = "j1") = some r' ∧
        r'.status = some "done" ∧
        r'.resultSummary = some (doneSummary (Analysis.mk (some "Automate intake"))) ∧
        doneSummary (Analysis.mk (some "Automate intake")) ≠ "" ∧
        r'.emailStatus = some "error") := by
  have hfind : (pipeStore.find? fun r => r.id = "j1") =
      some (mkJobRecord (processFileJob "j1" "audio-1" none "t0") "t0") := rfl
  exact ⟨hfind,
    notify_failure_preserves_done c4env pipeStore "j1" "t1" _ "audio-1"
      "hello transcript" "{analysis}" (Analysis.mk (some "Automate intake"))
      (by decide) hfind rfl (by decide) (by decide) rfl rfl rfl (by decide)
      rfl (by decide) rfl (Or.inl ⟨"smtp down", rfl⟩)⟩

/-- C5 (amended): if a pipeline stage's operation fails — the transcription
call, or the chat-completion call after a successful transcription — then no
later stage's operation is invoked: the run's stage trace stops at the failed
stage, so a transcription failure never invokes the chat completion and no
stage failure ever invokes the email step; the job is transitioned to status
`error` with `resultSummary` set to the fixed prefix `Analysis failed: `
followed by the underlying message — the prefix does not vary with the failed
stage — and `error` set to the underlying message. -/
theorem stage_failure_stops_pipeline (env : PipelineEnv) (st : List JobRecord)
    (jobId now : String) (row : JobRecord) (fname e0 : String) (s : Stage)
    (hid : jobId ≠ "")
    (hfind : (st.find? fun r => r.id = jobId) = some row)
    (hoai : env.openaiConfigured = true)
    (hfname : row.filename = some fname) (hfne : fname ≠ "")
    (hfile : env.fileExists = true)
    (hcopy : env.copyFile = Except.ok ())
    (hstage : stageFails env s e0) :
    ∃ st' r',
      runAnalysisForJob env st jobId now = Except.ok (st', stagesThrough s) ∧
      (s = Stage.transcription → Stage.chatCompletion ∉ stagesThrough s) ∧
      Stage.emailNotify ∉ stagesThrough s ∧
      (st'.find? fun r => r.id = jobId) = some r' ∧
      r'.status = some "error" ∧
      r'.resultSummary = some ("Analysis failed: " ++ e0) ∧
      r'.error = some e0 := by
  have hupd : memUpdateJob st jobId (failFields e0) now =
      Except.ok (storeUpdate st jobId (failFields e0) now) :=
    memUpdateJob_found st jobId _ now row hid hfind rfl
  have hfind1 := find?_storeUpdate_of_found st jobId (failFields e0) now row hfind
  cases s with
  | transcription =>
    have ht : env.transcription = Except.error e0 := hstage
    refine ⟨_, _, ?_, by decide, by decide, hfind1, rfl, rfl, rfl⟩
    unfold runAnalysisForJob runAnalysisTry
    simp only [hfind, hoai, hfname, hfile, hcopy, ht, hupd, Option.getD_some]
    simp [hfne, Except.map, stagesThrough]
  | chatCompletion =>
    obtain ⟨t, ht, htne, hc⟩ : ∃ t, env.transcription = Except.ok t ∧ t ≠ "" ∧
        env.chat t = Except.error e0 := hstage
    refine ⟨_, _, ?_, by decide, by decide, hfind1, rfl, rfl, rfl⟩
    unfold runAnalysisForJob runAnalysisTry
    simp only [hfind, hoai, hfname, hfile, hcopy, ht, hc, hupd, Option.getD_some]
    simp [hfne, htne, Except.map, stagesThrough, hupd]
  | emailNotify => exact hstage.elim

/-- Witness for C5 at the concrete environment whose chat-completion stage
throws `boom` after a successful transcription — a failure at stage 2 of the
pipeline, with stage 3 (the email step) never invoked — over the store created
by the upload handler. -/
theorem stage_failure_stops_pipeline_witness :
    (pipeStore.find? fun r => r.id = "j1") =
        some (mkJobRecord (processFileJob "j1" "audio-1" none "t0") "t0") ∧
      stageFails c5envB Stage.chatCompletion "boom" ∧
      (∃ st' r',
        runAnalysisForJob c5envB pipeStore "j1" "t1" =
          Except.ok (st', stagesThrough Stage.chatCompletion) ∧
        (Stage.chatCompletion = Stage.transcription →
          Stage.chatCompletion ∉ stagesThrough Stage.chatCompletion) ∧
        Stage.emailNotify ∉ stagesThrough Stage.chatCompletion ∧
        (st'.find? fun r => r.id = "j1") = some r' ∧
        r'.status = some "error" ∧
        r'.resultSummary = some ("Analysis failed: " ++ "boom") ∧
        r'.error = some "boom") := by
  have hfind : (pipeStore.find? fun r => r.id = "j1") =
      some (mkJobRecord (processFileJob "j1" "audio-1" none "t0") "t0") := rfl
  have hstage : stageFails c5envB Stage.chatCompletion "boom" :=
    ⟨"hello transcript", rfl, by decide, rfl⟩
  exact ⟨hfind, hstage,
    stage_failure_stops_pipeline c5envB pipeStore "j1" "t1" _ "audio-1" "boom"
      Stage.chatCompletion (by decide) hfind rfl (by decide) (by decide) rfl rfl
      hstage⟩

/-- C5 counterexample (to the stage-naming part of the claim): a run failing at
the transcription stage and a run failing at the chat-completion stage, both
with underlying message `boom`, leave the very same final store — the result
summary is `Analysis failed: boom` in both, so the failure message cannot be
naming the failed stage; only the stage traces differ. -/
theorem stage_name_not_in_summary_cex :
    runAnalysisForJob c5envA pipeStore "j1" "t1" =
        Except.ok (c5errStore, [Stage.transcription]) ∧
      runAnalysisForJob c5envB pipeStore "j1" "t1" =
        Except.ok (c5errStore, [Stage.transcription, Stage.chatCompletion]) ∧
      summaryOf c5errStore "j1" = some (some "Analysis failed: boom") := by
  refine ⟨rfl, rfl, rfl⟩

/-- C9 counterexample: the handler rejects the empty-string target as invalid
input (JS falsiness) even under the dry-run flag, while the claim's precedence
— clause (1) covering only missing or non-string targets — short-circuits it
as a dry-run success. -/
theorem ingest_gate_empty_target_cex :
    webhookIngestGate (ReqTarget.str "") true true = GateDecision.rejectInvalid ∧
      claimIngestGate (ReqTarget.str "") true true = GateDecision.dryRunShortCircuit ∧
      GateDecision.rejectInvalid ≠ GateDecision.dryRunShortCircuit := by
  refine ⟨rfl, rfl, by decide⟩

/-- C9 (amended): the handler's gate decision follows the claimed fixed
precedence once clause (1) also covers the empty-string target: (1) missing,
non-string or empty target rejects as invalid; (2) otherwise dry-run
short-circuits; (3) otherwise a `mock:` target proceeds regardless of the
network flag; (4) otherwise network-disabled rejects; (5) otherwise proceed. -/
theorem ingest_gate_matches_amended_precedence (target : ReqTarget)
    (dryRun allowNetwork : Bool) :
    webhookIngestGate target dryRun allowNetwork =
      amendedIngestGate target dryRun allowNetwork := by
  cases target with
  | missing => rfl
  | nonString => rfl
  | str s =>
    simp only [webhookIngestGate, amendedIngestGate]
    by_cases hs : s = ""
    · rw [if_pos hs, if_pos hs]
    · rw [if_neg hs, if_neg hs]
      by_cases hd : dryRun = true
      · rw [if_pos hd, if_pos hd]
      · rw [if_neg hd, if_neg hd]
        cases hm : strStartsWith s "mock:" <;> cases allowNetwork <;> simp [hm]

end DiscoveryCore
